import Mathlib

/-!
Shallow embedding of the InvoiceVision extraction-result parsing core:
`src/utils/data_parser.py` (parse_extraction_result, validate_invoice_data,
clean_string, clean_currency) and `src/models/invoice_model.py`
(VendorInfo, BillingInfo, LineItem, InvoiceData with to_dict, from_dict,
validate).

Python values decoded from JSON are modelled by the inductive `JValue`;
Python dicts are ordered association lists (insertion order, unique keys in
practice).  JSON floats are modelled by integer literals (`jnum`): the code
under verification only stores and compares these values, it never does
float arithmetic on them.  Python exceptions are modelled with
`Except PyError`; the streamlit `st.warning` / `st.error` calls are modelled
as emitted `Signal` values (the message text itself is presentation-layer
and is abstracted).
-/

namespace InvoiceVision

/-- Model of a Python value as produced by `json.loads` (and as held in the
loosely-typed dicts the repository passes around). -/
inductive JValue where
  | jstr (s : String)
  | jnum (n : Int)
  | jbool (b : Bool)
  | jnull
  | jarr (xs : List JValue)
  | jobj (fields : List (String × JValue))

/-- Python exception kinds raised by the modelled code paths. -/
inductive PyError where
  | attributeError
  | typeError
  | valueError
deriving DecidableEq

/-- Model of the user-facing streamlit signals emitted by
`src/utils/data_parser.py` (`st.warning` / `st.error` calls). -/
inductive Signal where
  | noJsonWarning
  | jsonDecodeError
  | validationWarning
deriving DecidableEq

/-- Python truthiness (`bool(v)`) of a JSON-decoded value: empty string,
zero, False, None, empty list and empty dict are falsy. -/
def pyTruthy : JValue → Bool
  | .jstr s => !s.isEmpty
  | .jnum n => n != 0
  | .jbool b => b
  | .jnull => false
  | .jarr xs => !xs.isEmpty
  | .jobj fs => !fs.isEmpty

/-- Model of Python `dict.get(k, default)` on an ordered association list. -/
def dictGetD : List (String × JValue) → String → JValue → JValue
  | [], _, d => d
  | (k', v) :: rest, k, d => if k' = k then v else dictGetD rest k d

/-- Model of Python `d[k]` presence: the value under the first occurrence
of key `k`, or `none` when the key is absent. -/
def dictFind : List (String × JValue) → String → Option JValue
  | [], _ => none
  | (k', v) :: rest, k => if k' = k then some v else dictFind rest k

/-- The single-quote character, used by Python `repr` of strings. -/
def squote : Char := Char.ofNat 39

/-- Opening curly brace character. -/
def lbrace : Char := Char.ofNat 123

/-- Closing curly brace character. -/
def rbrace : Char := Char.ofNat 125

mutual
/-- Model of Python `repr` for JSON-decodable values (strings are wrapped in
single quotes; escape sequences inside strings are not reproduced — no claim
in this development depends on the textual form of containers or exotic
strings). -/
def pyRepr : JValue → String
  | .jstr s => String.mk (squote :: s.data ++ [squote])
  | .jnum n => toString n
  | .jbool b => if b then "True" else "False"
  | .jnull => "None"
  | .jarr xs => "[" ++ String.intercalate ", " (pyReprList xs) ++ "]"
  | .jobj fs => String.mk [lbrace] ++ String.intercalate ", " (pyReprFields fs) ++ String.mk [rbrace]

/-- Elementwise `pyRepr` over a list of values. -/
def pyReprList : List JValue → List String
  | [] => []
  | v :: rest => pyRepr v :: pyReprList rest

/-- Elementwise `key: value` rendering of dict entries for `pyRepr`. -/
def pyReprFields : List (String × JValue) → List String
  | [] => []
  | (k, v) :: rest => (pyRepr (.jstr k) ++ ": " ++ pyRepr v) :: pyReprFields rest
end

/-- Model of Python `str(v)`: the identity on strings, and for every other
value the same text as `repr` (the scalar arms are spelled out so that they
reduce definitionally). -/
def pyStr : JValue → String
  | .jstr s => s
  | .jnum n => toString n
  | .jbool b => if b then "True" else "False"
  | .jnull => "None"
  | v => pyRepr v

/-- Characters treated as whitespace by Python `str.strip()` and `\s`
(restricted to the ASCII whitespace set; no claim involves Unicode
whitespace). -/
def isPyWs (c : Char) : Bool :=
  c == ' ' || c == Char.ofNat 9 || c == Char.ofNat 10 || c == Char.ofNat 13 || c == Char.ofNat 11 || c == Char.ofNat 12

/-- Model of Python `str.strip()`: drop leading and trailing whitespace. -/
def pyStripL (cs : List Char) : List Char :=
  ((cs.dropWhile isPyWs).reverse.dropWhile isPyWs).reverse

/-- Auxiliary run-collapser: the boolean records whether the previous kept
character came from a whitespace run. -/
def collapseAux : List Char → Bool → List Char
  | [], _ => []
  | c :: rest, prevWs =>
    if isPyWs c then
      if prevWs then collapseAux rest true else ' ' :: collapseAux rest true
    else c :: collapseAux rest false

/-- Model of `re.sub(r'\s+', ' ', s)`: every maximal whitespace run becomes a
single space. -/
def collapseWs (cs : List Char) : List Char := collapseAux cs false

/-- Embedding of `clean_string` from `src/utils/data_parser.py`: `''` for
None, else `str(value).strip()` with whitespace runs collapsed. -/
def clean_string : JValue → String
  | .jnull => ""
  | v => String.mk (collapseWs (pyStripL (pyStr v).data))

/-- Embedding of the character-class strip
`re.sub(r'[^\d.,]', '', cleaned)` in `clean_currency`: keep only digits,
commas and periods. -/
def currencyStripL (cs : List Char) : List Char :=
  cs.filter (fun c => c.isDigit || c == ',' || c == '.')

/-- Model of Python `cleaned.split(',')[-1]`: the chunk after the last
comma. -/
def lastCommaChunk (cs : List Char) : List Char := (cs.splitOn ',').getLastD []

/-- Model of Python `s.replace(c, '')`: remove every occurrence of `c`. -/
def removeChar (c : Char) (cs : List Char) : List Char := cs.filter (fun x => x != c)

/-- Model of Python `s.replace(a, b)` for single characters. -/
def replaceChar (a b : Char) (cs : List Char) : List Char :=
  cs.map (fun c => if c = a then b else c)

/-- Embedding of the separator-disambiguation block of `clean_currency`
(`src/utils/data_parser.py` lines 146-156). -/
def normalizeSeparators (cs : List Char) : List Char :=
  if cs.contains ',' && cs.contains '.' then
    removeChar ',' cs
  else if cs.contains ',' && !cs.contains '.' then
    if (lastCommaChunk cs).length ≤ 2 then replaceChar ',' '.' cs
    else removeChar ',' cs
  else cs

/-- Embedding of `clean_currency` from `src/utils/data_parser.py`: `''` for
None, else strip whitespace, keep only digits/commas/periods, then
disambiguate the separators. -/
def clean_currency : JValue → String
  | .jnull => ""
  | v => String.mk (normalizeSeparators (currencyStripL (pyStripL (pyStr v).data)))

/-- Embedding of the `VendorInfo` dataclass (`src/models/invoice_model.py`).
Fields are `JValue` rather than `String` because Python is dynamically typed
and `InvoiceData.from_dict` stores raw map values without coercion. -/
structure VendorInfo where
  name : JValue := .jstr ""
  address : JValue := .jstr ""
  phone : JValue := .jstr ""
  email : JValue := .jstr ""

/-- Embedding of `VendorInfo.is_empty`: true iff all four fields are
falsy. -/
def VendorInfo.is_empty (v : VendorInfo) : Bool :=
  !(pyTruthy v.name || pyTruthy v.address || pyTruthy v.phone || pyTruthy v.email)

/-- Embedding of `VendorInfo.to_dict`. -/
def VendorInfo.to_dict (v : VendorInfo) : JValue :=
  .jobj [("name", v.name), ("address", v.address), ("phone", v.phone), ("email", v.email)]

/-- Embedding of the `BillingInfo` dataclass. -/
structure BillingInfo where
  name : JValue := .jstr ""
  address : JValue := .jstr ""

/-- Embedding of `BillingInfo.is_empty`. -/
def BillingInfo.is_empty (b : BillingInfo) : Bool :=
  !(pyTruthy b.name || pyTruthy b.address)

/-- Embedding of `BillingInfo.to_dict`. -/
def BillingInfo.to_dict (b : BillingInfo) : JValue :=
  .jobj [("name", b.name), ("address", b.address)]

/-- Embedding of the `LineItem` dataclass. -/
structure LineItem where
  description : JValue := .jstr ""
  quantity : JValue := .jstr ""
  unit_price : JValue := .jstr ""
  total : JValue := .jstr ""

/-- Embedding of `LineItem.is_empty`. -/
def LineItem.is_empty (it : LineItem) : Bool :=
  !(pyTruthy it.description || pyTruthy it.quantity || pyTruthy it.unit_price || pyTruthy it.total)

/-- Embedding of `LineItem.to_dict`. -/
def LineItem.to_dict (it : LineItem) : JValue :=
  .jobj [("description", it.description), ("quantity", it.quantity), ("unit_price", it.unit_price), ("total", it.total)]

/-- Embedding of the `InvoiceData` dataclass.  `vendor` and `billing_to` are
`Option` because the Python annotation is `Optional[...]`; the dataclass
default is a fresh empty sub-object (`some {}`), never `none`.  The float
metadata defaults `0.0` are modelled by the integer literal `jnum 0` (these
values are only stored and compared, never used arithmetically). -/
structure InvoiceData where
  invoice_number : JValue := .jstr ""
  invoice_date : JValue := .jstr ""
  due_date : JValue := .jstr ""
  currency : JValue := .jstr ""
  subtotal : JValue := .jstr ""
  tax_amount : JValue := .jstr ""
  tax_rate : JValue := .jstr ""
  total_amount : JValue := .jstr ""
  vendor : Option VendorInfo := some {}
  billing_to : Option BillingInfo := some {}
  line_items : List LineItem := []
  raw_response : JValue := .jstr ""
  extraction_confidence : JValue := .jnum 0
  processing_time : JValue := .jnum 0

/-- The eight always-serialized scalar entries of `InvoiceData.to_dict`. -/
def baseFields (inv : InvoiceData) : List (String × JValue) :=
  [("invoice_number", inv.invoice_number), ("invoice_date", inv.invoice_date),
   ("due_date", inv.due_date), ("currency", inv.currency),
   ("subtotal", inv.subtotal), ("tax_amount", inv.tax_amount),
   ("tax_rate", inv.tax_rate), ("total_amount", inv.total_amount)]

/-- Vendor entry of `to_dict`: present iff the vendor object exists (a
Python object is truthy) and is not empty. -/
def vendorPart (inv : InvoiceData) : List (String × JValue) :=
  match inv.vendor with
  | some v => if !v.is_empty then [("vendor", v.to_dict)] else []
  | none => []

/-- Billing entry of `to_dict`: present iff the billing object exists and is
not empty. -/
def billingPart (inv : InvoiceData) : List (String × JValue) :=
  match inv.billing_to with
  | some b => if !b.is_empty then [("billing_to", b.to_dict)] else []
  | none => []

/-- Line-items entry of `to_dict`: the key is present iff the internal list
is non-empty; the serialized list filters out empty items. -/
def itemsPart (inv : InvoiceData) : List (String × JValue) :=
  if inv.line_items.isEmpty then []
  else [("line_items", .jarr ((inv.line_items.filter (fun it => !it.is_empty)).map LineItem.to_dict))]

/-- Metadata entry of `to_dict`: present iff `raw_response` is truthy. -/
def metaPart (inv : InvoiceData) : List (String × JValue) :=
  if pyTruthy inv.raw_response then
    [("_metadata", .jobj [("raw_response", inv.raw_response),
      ("extraction_confidence", inv.extraction_confidence),
      ("processing_time", inv.processing_time)])]
  else []

/-- Embedding of `InvoiceData.to_dict` (`src/models/invoice_model.py` lines
93-126). -/
def InvoiceData.to_dict (inv : InvoiceData) : List (String × JValue) :=
  baseFields inv ++ vendorPart inv ++ billingPart inv ++ itemsPart inv ++ metaPart inv

/-- VendorInfo built by `from_dict` from a raw vendor map: field values are
taken raw, defaulting to the empty string. -/
def VendorInfo.fromFields (fs : List (String × JValue)) : VendorInfo :=
  { name := dictGetD fs "name" (.jstr ""), address := dictGetD fs "address" (.jstr ""),
    phone := dictGetD fs "phone" (.jstr ""), email := dictGetD fs "email" (.jstr "") }

/-- BillingInfo built by `from_dict` from a raw billing map. -/
def BillingInfo.fromFields (fs : List (String × JValue)) : BillingInfo :=
  { name := dictGetD fs "name" (.jstr ""), address := dictGetD fs "address" (.jstr "") }

/-- Line-item construction in `from_dict`: entries that are not dicts are
skipped (`isinstance(item_data, dict)` check). -/
def LineItem.ofJson : JValue → Option LineItem
  | .jobj fs => some
      { description := dictGetD fs "description" (.jstr ""),
        quantity := dictGetD fs "quantity" (.jstr ""),
        unit_price := dictGetD fs "unit_price" (.jstr ""),
        total := dictGetD fs "total" (.jstr "") }
  | _ => none

/-- Vendor step of `from_dict`: when `data.get('vendor', {})` is truthy,
`.get` is called on it — a dict yields a `VendorInfo` built from raw
values, anything else raises `AttributeError`; when falsy, the dataclass
default (a fresh empty `VendorInfo`) is kept. -/
def fdVendor (data : List (String × JValue)) : Except PyError (Option VendorInfo) :=
  if pyTruthy (dictGetD data "vendor" (.jobj [])) then
    match dictGetD data "vendor" (.jobj []) with
    | .jobj fs => pure (some (VendorInfo.fromFields fs))
    | _ => throw PyError.attributeError
  else pure (some {})

/-- Billing step of `from_dict`, analogous to the vendor step. -/
def fdBilling (data : List (String × JValue)) : Except PyError (Option BillingInfo) :=
  if pyTruthy (dictGetD data "billing_to" (.jobj [])) then
    match dictGetD data "billing_to" (.jobj []) with
    | .jobj fs => pure (some (BillingInfo.fromFields fs))
    | _ => throw PyError.attributeError
  else pure (some {})

/-- Line-items step of `from_dict`: iterating a truthy list builds a
`LineItem` from every dict entry and skips the rest; iterating a truthy
string or dict yields characters/keys, none of which are dicts, so the item
list stays empty; iterating a truthy number or boolean raises
`TypeError`. -/
def fdItems (data : List (String × JValue)) : Except PyError (List LineItem) :=
  if pyTruthy (dictGetD data "line_items" (.jarr [])) then
    match dictGetD data "line_items" (.jarr []) with
    | .jarr xs => pure (xs.filterMap LineItem.ofJson)
    | .jstr _ => pure []
    | .jobj _ => pure []
    | _ => throw PyError.typeError
  else pure []

/-- Metadata step of `from_dict`: a truthy dict under `_metadata` supplies
the raw response, extraction confidence and processing time (raw values,
defaulting to `''` / `0.0`); a truthy non-dict raises `AttributeError`;
falsy keeps the dataclass defaults. -/
def fdMeta (data : List (String × JValue)) : Except PyError (JValue × JValue × JValue) :=
  if pyTruthy (dictGetD data "_metadata" (.jobj [])) then
    match dictGetD data "_metadata" (.jobj []) with
    | .jobj fs => pure (dictGetD fs "raw_response" (.jstr ""),
        dictGetD fs "extraction_confidence" (.jnum 0),
        dictGetD fs "processing_time" (.jnum 0))
    | _ => throw PyError.attributeError
  else pure (.jstr "", .jnum 0, .jnum 0)

/-- Embedding of `InvoiceData.from_dict` (`src/models/invoice_model.py`
lines 128-184), assembled from the four fallible steps above; the scalar
fields are taken raw with empty-string defaults and cannot raise. -/
def InvoiceData.from_dict (data : List (String × JValue)) : Except PyError InvoiceData := do
  let vendor ← fdVendor data
  let billing ← fdBilling data
  let items ← fdItems data
  let meta ← fdMeta data
  pure
    { invoice_number := dictGetD data "invoice_number" (.jstr ""),
      invoice_date := dictGetD data "invoice_date" (.jstr ""),
      due_date := dictGetD data "due_date" (.jstr ""),
      currency := dictGetD data "currency" (.jstr ""),
      subtotal := dictGetD data "subtotal" (.jstr ""),
      tax_amount := dictGetD data "tax_amount" (.jstr ""),
      tax_rate := dictGetD data "tax_rate" (.jstr ""),
      total_amount := dictGetD data "total_amount" (.jstr ""),
      vendor := vendor, billing_to := billing, line_items := items,
      raw_response := meta.1, extraction_confidence := meta.2.1,
      processing_time := meta.2.2 }

/-- Digit/dot strip used by `validate`: `re.sub(r'[^\d.]', '', s)`. -/
def stripToDigitsDot (s : String) : List Char :=
  s.data.filter (fun c => c.isDigit || c == '.')

/-- Model of Python `float(s)` succeeding, restricted to strings of digits
and dots (the only strings `validate` feeds it): conversion succeeds iff
there is at least one digit and at most one dot. -/
def floatConvertible (cs : List Char) : Bool :=
  cs.any Char.isDigit && decide (cs.count '.' ≤ 1)

/-- Suffixes reachable after consuming between `minN` and `maxN` leading
digits, modelling a `\d{minN,maxN}` regex atom under prefix-match
semantics. -/
def digitSpans (cs : List Char) (minN maxN : Nat) : List (List Char) :=
  (List.range (maxN + 1)).filterMap (fun k =>
    if decide (minN ≤ k) && decide ((cs.take k).length = k) && (cs.take k).all Char.isDigit
    then some (cs.drop k) else none)

/-- Suffixes reachable after consuming one one slash-or-dash separator. -/
def sepSpans : List Char → List (List Char)
  | [] => []
  | c :: rest => if c == '/' || c == '-' then [rest] else []

/-- Prefix match of `\d{a1,a2}[slash-dash]\d{b1,b2}[slash-dash]\d{c1,c2}` against `cs`. -/
def branchMatch (cs : List Char) (a1 a2 b1 b2 c1 c2 : Nat) : Bool :=
  !((((((digitSpans cs a1 a2).flatMap sepSpans).flatMap
      (fun r => digitSpans r b1 b2)).flatMap sepSpans).flatMap
      (fun r => digitSpans r c1 c2)).isEmpty)

/-- Model of `re.match` with the date pattern of `InvoiceData.validate`:
`\d{1,2}[slash-dash]\d{1,2}[slash-dash]\d{2,4}|\d{4}[slash-dash]\d{1,2}[slash-dash]\d{1,2}`, anchored at the
start, rest of the string unconstrained. -/
def dateFormatOk (s : String) : Bool :=
  branchMatch s.data 1 2 1 2 2 4 || branchMatch s.data 4 4 1 2 1 2

/-- Per-item validation loop of `InvoiceData.validate`, with 0-based index
`i` (messages use `i+1`).  `re.sub` on a truthy non-string unit price raises
`TypeError`. -/
def itemErrorsFrom : Nat → List LineItem → Except PyError (List String)
  | _, [] => pure []
  | i, it :: rest => do
    let descErrs := if pyTruthy it.description then []
      else ["Line item " ++ toString (i + 1) ++ ": Description is missing"]
    let priceErrs ←
      if pyTruthy it.unit_price then
        match it.unit_price with
        | .jstr s => pure (if floatConvertible (stripToDigitsDot s) then []
            else ["Line item " ++ toString (i + 1) ++ ": Unit price is not a valid number"])
        | _ => throw PyError.typeError
      else pure []
    let restErrs ← itemErrorsFrom (i + 1) rest
    pure (descErrs ++ priceErrs ++ restErrs)

/-- Embedding of `InvoiceData.validate` (`src/models/invoice_model.py`
lines 231-276).  `re.match` / `re.sub` on a truthy non-string field raises
`TypeError` (modelled); on string-typed records the function is total. -/
def InvoiceData.validate (inv : InvoiceData) : Except PyError (List String) := do
  let e1 := if pyTruthy inv.invoice_number then [] else ["Invoice number is required"]
  let e2 := if pyTruthy inv.total_amount then [] else ["Total amount is required"]
  let e3 ←
    if pyTruthy inv.invoice_date then
      match inv.invoice_date with
      | .jstr s => pure (if dateFormatOk s then [] else ["Invoice date format may be invalid"])
      | _ => throw PyError.typeError
    else pure []
  let e4 ←
    if pyTruthy inv.due_date then
      match inv.due_date with
      | .jstr s => pure (if dateFormatOk s then [] else ["Due date format may be invalid"])
      | _ => throw PyError.typeError
    else pure []
  let e5 ←
    if pyTruthy inv.total_amount then
      match inv.total_amount with
      | .jstr s => pure (if floatConvertible (stripToDigitsDot s) then []
          else ["Total amount is not a valid number"])
      | _ => throw PyError.typeError
    else pure []
  let e6 ← if inv.line_items.isEmpty then pure [] else itemErrorsFrom 0 inv.line_items
  pure (e1 ++ e2 ++ e3 ++ e4 ++ e5 ++ e6)

/-- Internal state of `validate_invoice_data` (`src/utils/data_parser.py`
lines 42-104) just before the final `invoice.to_dict()` call.  In the Python
source the function reassigns `invoice.vendor`, `invoice.billing_to` and the
entries of `invoice.line_items` to PLAIN DICTS (not `VendorInfo` /
`BillingInfo` / `LineItem` objects), so the state is modelled separately
from `InvoiceData`: the eight scalar fields hold the cleaned strings, and
the three loose slots record whether (and with which cleaned values) a plain
dict was assigned. -/
structure VIState where
  invoice_number : String
  invoice_date : String
  due_date : String
  currency : String
  subtotal : String
  tax_amount : String
  tax_rate : String
  total_amount : String
  vendorAssigned : Option (String × String × String × String)
  billingAssigned : Option (String × String)
  items : List (String × String × String × String)

/-- Embedding of the field-mapping portion of `validate_invoice_data`
(lines 56-98): clean the scalar fields, build the vendor / billing dicts
when the source value is truthy (raising `AttributeError` on a truthy
non-dict, whose `.get` does not exist), and build cleaned line items from
dict entries (iterating a truthy number or boolean raises `TypeError`;
iterating a truthy string or dict yields characters/keys, which the
`isinstance(item, dict)` check skips). -/
def mapBody (data : List (String × JValue)) : Except PyError VIState := do
  let vendorVal := dictGetD data "vendor" (.jobj [])
  let vendorAssigned ←
    if pyTruthy vendorVal then
      match vendorVal with
      | .jobj fs => pure (some (clean_string (dictGetD fs "name" (.jstr "")),
          clean_string (dictGetD fs "address" (.jstr "")),
          clean_string (dictGetD fs "phone" (.jstr "")),
          clean_string (dictGetD fs "email" (.jstr ""))))
      | _ => throw PyError.attributeError
    else pure none
  let billingVal := dictGetD data "billing_to" (.jobj [])
  let billingAssigned ←
    if pyTruthy billingVal then
      match billingVal with
      | .jobj fs => pure (some (clean_string (dictGetD fs "name" (.jstr "")),
          clean_string (dictGetD fs "address" (.jstr ""))))
      | _ => throw PyError.attributeError
    else pure none
  let itemsVal := dictGetD data "line_items" (.jarr [])
  let items ←
    if pyTruthy itemsVal then
      match itemsVal with
      | .jarr xs => pure (xs.filterMap (fun x =>
          match x with
          | .jobj fs => some (clean_string (dictGetD fs "description" (.jstr "")),
              clean_string (dictGetD fs "quantity" (.jstr "")),
              clean_currency (dictGetD fs "unit_price" (.jstr "")),
              clean_currency (dictGetD fs "total" (.jstr "")))
          | _ => none))
      | .jstr _ => pure []
      | .jobj _ => pure []
      | _ => throw PyError.typeError
    else pure []
  pure
    { invoice_number := clean_string (dictGetD data "invoice_number" (.jstr "")),
      invoice_date := clean_string (dictGetD data "invoice_date" (.jstr "")),
      due_date := clean_string (dictGetD data "due_date" (.jstr "")),
      currency := clean_string (dictGetD data "currency" (.jstr "")),
      subtotal := clean_currency (dictGetD data "subtotal" (.jstr "")),
      tax_amount := clean_currency (dictGetD data "tax_amount" (.jstr "")),
      tax_rate := clean_string (dictGetD data "tax_rate" (.jstr "")),
      total_amount := clean_currency (dictGetD data "total_amount" (.jstr "")),
      vendorAssigned := vendorAssigned, billingAssigned := billingAssigned,
      items := items }

/-- Embedding of the `invoice.to_dict()` call at the end of
`validate_invoice_data`, evaluated on the hybrid state: whenever a plain
dict was assigned to `vendor` or `billing_to` (always truthy, since the
built dict has four / two keys), or any plain-dict line item exists,
`to_dict` calls `.is_empty()` on a dict and raises `AttributeError`;
otherwise the defaults are empty and only the eight scalars are emitted
(`raw_response` is `''`, so no metadata block either). -/
def hybridToDict (st : VIState) : Except PyError (List (String × JValue)) :=
  match st.vendorAssigned with
  | some _ => throw PyError.attributeError
  | none =>
    match st.billingAssigned with
    | some _ => throw PyError.attributeError
    | none =>
      if st.items.isEmpty then
        pure [("invoice_number", JValue.jstr st.invoice_number),
          ("invoice_date", JValue.jstr st.invoice_date),
          ("due_date", JValue.jstr st.due_date),
          ("currency", JValue.jstr st.currency),
          ("subtotal", JValue.jstr st.subtotal),
          ("tax_amount", JValue.jstr st.tax_amount),
          ("tax_rate", JValue.jstr st.tax_rate),
          ("total_amount", JValue.jstr st.total_amount)]
      else throw PyError.attributeError

/-- The whole `try` block of `validate_invoice_data`: field mapping followed
by the `invoice.to_dict()` call. -/
def viBody (data : List (String × JValue)) : Except PyError (List (String × JValue)) := do
  let st ← mapBody data
  hybridToDict st

/-- Embedding of `validate_invoice_data`: any exception inside the `try`
block is caught, a `st.warning` is signalled, and the ORIGINAL decoded map
is returned unmodified. -/
def validate_invoice_data (data : List (String × JValue)) : List (String × JValue) × List Signal :=
  match viBody data with
  | .ok d => (d, [])
  | .error _ => (data, [Signal.validationWarning])

/-- Suffix of `cs` from its last closing brace (inclusive of everything
before it, i.e. the prefix of `cs` ending at the last closing brace);
empty when `cs` has no closing brace. -/
def upToLastRBrace (cs : List Char) : List Char :=
  (cs.reverse.dropWhile (fun c => c != rbrace)).reverse

/-- Model of `re.search(r'\x7b.*\x7d', content, re.DOTALL)`: the greedy span
from the first opening brace to the last closing brace after it, or `none`
when no such span exists. -/
def braceSpan (cs : List Char) : Option (List Char) :=
  match cs.dropWhile (fun c => c != lbrace) with
  | [] => none
  | c :: rest =>
    if (upToLastRBrace rest).isEmpty then none else some (c :: upToLastRBrace rest)

/-- Embedding of `parse_extraction_result` (`src/utils/data_parser.py` lines
10-40), from the extracted `content` string on.  The strict JSON decoder
(`json.loads`) is standard-library code external to the repository and is
passed as a parameter: `none` models a `json.JSONDecodeError` (caught by the
`except` clause, which signals `st.error` and returns `None`); a located
span that decodes successfully always yields a dict, since the span starts
with an opening brace. -/
def parse_extraction_result (decode : String → Option (List (String × JValue)))
    (content : String) : Option (List (String × JValue)) × List Signal :=
  match braceSpan content.data with
  | none => (some [("raw_response", JValue.jstr content)], [Signal.noJsonWarning])
  | some span =>
    match decode (String.mk span) with
    | none => (none, [Signal.jsonDecodeError])
    | some parsed =>
      let (d, sigs) := validate_invoice_data parsed
      (some d, sigs)

/-- Normal form reached by one `to_dict` / `from_dict` round trip: scalar
fields survive exactly; empty (or absent) vendor / billing sub-objects are
reset to fresh defaults; empty line items are dropped; and when
`raw_response` is falsy the whole metadata block (including a possibly
non-zero confidence and processing time) is reset to defaults. -/
def rtNormal (r : InvoiceData) : InvoiceData :=
  { invoice_number := r.invoice_number, invoice_date := r.invoice_date,
    due_date := r.due_date, currency := r.currency, subtotal := r.subtotal,
    tax_amount := r.tax_amount, tax_rate := r.tax_rate,
    total_amount := r.total_amount,
    vendor := some (match r.vendor with
      | some v => if v.is_empty then {} else v
      | none => {}),
    billing_to := some (match r.billing_to with
      | some b => if b.is_empty then {} else b
      | none => {}),
    line_items := r.line_items.filter (fun it => !it.is_empty),
    raw_response := if pyTruthy r.raw_response then r.raw_response else .jstr "",
    extraction_confidence := if pyTruthy r.raw_response then r.extraction_confidence else .jnum 0,
    processing_time := if pyTruthy r.raw_response then r.processing_time else .jnum 0 }

/-- Value acceptable where `from_dict` calls `.get` on it: a dict, or any
falsy value (which the truthiness guard skips). -/
def mapOrFalsy : JValue → Bool
  | .jobj _ => true
  | v => !pyTruthy v

/-- Value acceptable where `from_dict` iterates it: any iterable (list,
string, dict) or any falsy value. -/
def iterOrFalsy : JValue → Bool
  | .jarr _ => true
  | .jstr _ => true
  | .jobj _ => true
  | v => !pyTruthy v

/-- Shape condition under which `from_dict` raises no exception. -/
def fromDictShapeOk (data : List (String × JValue)) : Bool :=
  mapOrFalsy (dictGetD data "vendor" (.jobj [])) &&
  mapOrFalsy (dictGetD data "billing_to" (.jobj [])) &&
  mapOrFalsy (dictGetD data "_metadata" (.jobj [])) &&
  iterOrFalsy (dictGetD data "line_items" (.jarr []))

/-- Test for a string-valued field. -/
def isJStr : JValue → Bool
  | .jstr _ => true
  | _ => false

/-- Line item whose fields are all strings, as the data-model invariant
requires. -/
def LineItem.strTyped (it : LineItem) : Bool :=
  isJStr it.description && isJStr it.quantity && isJStr it.unit_price && isJStr it.total

/-- Record whose scalar and line-item fields are all strings — the domain
described by the data model (every field a normalized string). -/
def InvoiceData.strTyped (r : InvoiceData) : Bool :=
  isJStr r.invoice_number && isJStr r.invoice_date && isJStr r.due_date &&
  isJStr r.currency && isJStr r.subtotal && isJStr r.tax_amount &&
  isJStr r.tax_rate && isJStr r.total_amount && r.line_items.all LineItem.strTyped

/-- The digits-commas-periods string `clean_currency` forms before it
disambiguates the separators. -/
def currencyDigits (v : JValue) : List Char :=
  currencyStripL (pyStripL (pyStr v).data)

section Lemmas

theorem clean_currency_eq (v : JValue) :
    clean_currency v = String.mk (normalizeSeparators (currencyDigits v)) := by
  cases v <;> rfl

theorem currencyDigits_chars (v : JValue) :
    ∀ c ∈ currencyDigits v, c.isDigit = true ∨ c = ',' ∨ c = '.' := by
  intro c hc
  have h := List.of_mem_filter hc
  simp only [Bool.or_eq_true, beq_iff_eq] at h
  tauto

theorem contains_eq_mem (l : List Char) (a : Char) : l.contains a = true ↔ a ∈ l := by
  simp

theorem removeChar_chars (c : Char) (cs : List Char) (x : Char)
    (hx : x ∈ removeChar c cs) : x ∈ cs ∧ x ≠ c := by
  have hmem := List.mem_filter.mp hx
  refine ⟨hmem.1, ?_⟩
  simpa using hmem.2

theorem normalizeSeparators_chars (cs : List Char)
    (h : ∀ c ∈ cs, c.isDigit = true ∨ c = ',' ∨ c = '.') :
    ∀ c ∈ normalizeSeparators cs, c.isDigit = true ∨ c = '.' := by
  have hremove : ∀ c ∈ removeChar ',' cs, c.isDigit = true ∨ c = '.' := by
    intro c hc
    obtain ⟨hmem, hne⟩ := removeChar_chars ',' cs c hc
    rcases h c hmem with h1 | h1 | h1
    · exact Or.inl h1
    · exact absurd h1 hne
    · exact Or.inr h1
  intro c hc
  unfold normalizeSeparators at hc
  by_cases hcomma : ',' ∈ cs
  · by_cases hdot : '.' ∈ cs
    · rw [if_pos (by simp [hcomma, hdot])] at hc
      exact hremove c hc
    · rw [if_neg (by simp [hdot]), if_pos (by simp [hcomma, hdot])] at hc
      by_cases hlen : (lastCommaChunk cs).length ≤ 2
      · rw [if_pos hlen] at hc
        obtain ⟨a, ha, hac⟩ := List.mem_map.mp hc
        by_cases hcomma2 : a = ','
        · rw [if_pos hcomma2] at hac
          exact Or.inr hac.symm
        · rw [if_neg hcomma2] at hac
          subst hac
          rcases h a ha with h1 | h1 | h1
          · exact Or.inl h1
          · exact absurd h1 hcomma2
          · exact absurd (h1 ▸ ha) hdot
      · rw [if_neg hlen] at hc
        exact hremove c hc
  · rw [if_neg (by simp [hcomma]), if_neg (by simp [hcomma])] at hc
    rcases h c hc with h1 | h1 | h1
    · exact Or.inl h1
    · exact absurd (h1 ▸ hc) hcomma
    · exact Or.inr h1

end Lemmas

/-- C3 (amended): for every input value, the string returned by
`clean_currency` consists only of digit characters and periods — never
currency symbols, letters, or commas; it MAY however contain more than one
period (see the counterexample `clean_currency_multiple_dots`). -/
theorem clean_currency_digits_dots (v : JValue) (c : Char)
    (hc : c ∈ (clean_currency v).data) : c.isDigit = true ∨ c = '.' := by
  rw [clean_currency_eq] at hc
  exact normalizeSeparators_chars (currencyDigits v) (currencyDigits_chars v) c hc

/-- Witness for `clean_currency_digits_dots` at the concrete input
`"12.5"` and its output character `'5'`. -/
theorem clean_currency_digits_dots_witness :
    '5' ∈ (clean_currency (.jstr "12.5")).data ∧ ('5'.isDigit = true ∨ '5' = '.') :=
  ⟨by decide, clean_currency_digits_dots (.jstr "12.5") '5' (by decide)⟩

/-- C3 counterexample: on input `"1.2.3"`, `clean_currency` returns
`"1.2.3"`, which contains more than one decimal point — refuting the claim
that the output always has at most one `'.'`. -/
theorem clean_currency_multiple_dots :
    clean_currency (.jstr "1.2.3") = "1.2.3" ∧
    ¬ ((clean_currency (.jstr "1.2.3")).data.count '.' ≤ 1) := by
  constructor
  · rfl
  · decide

/-- C4: after stripping to digits, commas and periods, `clean_currency`
disambiguates separators: both `','` and `'.'` present means every comma is
removed; only `','` present with the chunk after the last comma of length at
most 2 means every comma becomes a period; only `','` present with a longer
trailing chunk means every comma is removed; in particular
`clean_currency "45,90" = "45.90"` and
`clean_currency "1,234.56" = "1234.56"`. -/
theorem clean_currency_separator_cases (v : JValue) :
    ((',' ∈ currencyDigits v → '.' ∈ currencyDigits v →
        clean_currency v = String.mk (removeChar ',' (currencyDigits v))) ∧
     (',' ∈ currencyDigits v → '.' ∉ currencyDigits v →
        (lastCommaChunk (currencyDigits v)).length ≤ 2 →
        clean_currency v = String.mk (replaceChar ',' '.' (currencyDigits v))) ∧
     (',' ∈ currencyDigits v → '.' ∉ currencyDigits v →
        2 < (lastCommaChunk (currencyDigits v)).length →
        clean_currency v = String.mk (removeChar ',' (currencyDigits v)))) ∧
    clean_currency (.jstr "45,90") = "45.90" ∧
    clean_currency (.jstr "1,234.56") = "1234.56" := by
  refine ⟨⟨?_, ?_, ?_⟩, by rfl, by rfl⟩
  · intro hc hd
    rw [clean_currency_eq]
    unfold normalizeSeparators
    rw [if_pos (by simp [hc, hd])]
  · intro hc hd hlen
    rw [clean_currency_eq]
    unfold normalizeSeparators
    rw [if_neg (by simp [hd]), if_pos (by simp [hc, hd]), if_pos hlen]
  · intro hc hd hlen
    rw [clean_currency_eq]
    unfold normalizeSeparators
    rw [if_neg (by simp [hd]), if_pos (by simp [hc, hd]), if_neg (Nat.not_le.mpr hlen)]

/-- Witness for `clean_currency_separator_cases`: the decimal-comma branch
applied at the concrete input `"45,90"`. -/
theorem clean_currency_separator_cases_witness :
    ',' ∈ currencyDigits (.jstr "45,90") ∧ '.' ∉ currencyDigits (.jstr "45,90") ∧
    (lastCommaChunk (currencyDigits (.jstr "45,90"))).length ≤ 2 ∧
    clean_currency (.jstr "45,90") = String.mk (replaceChar ',' '.' (currencyDigits (.jstr "45,90"))) :=
  ⟨by decide, by decide, by decide,
    (clean_currency_separator_cases (.jstr "45,90")).1.2.1 (by decide) (by decide) (by decide)⟩

section BraceLemmas

theorem dropWhile_head_not {p : Char → Bool} :
    ∀ (l : List Char) (c : Char) (rest : List Char), l.dropWhile p = c :: rest → p c = false := by
  intro l
  induction l with
  | nil => intro c rest h; simp at h
  | cons a l' ih =>
    intro c rest h
    rw [List.dropWhile_cons] at h
    by_cases hpa : p a = true
    · rw [if_pos hpa] at h
      exact ih c rest h
    · rw [if_neg hpa] at h
      cases h
      simpa using hpa

theorem mem_of_upToLastRBrace_ne_nil (rest : List Char)
    (h : ¬ (upToLastRBrace rest).isEmpty = true) : rbrace ∈ rest := by
  unfold upToLastRBrace at h
  rw [List.isEmpty_iff] at h
  have hdw : ¬ rest.reverse.dropWhile (fun c => c != rbrace) = [] := by
    intro hnil
    exact h (by rw [hnil]; rfl)
  rw [List.dropWhile_eq_nil_iff] at hdw
  push_neg at hdw
  obtain ⟨x, hx, hxb⟩ := hdw
  have hxeq : x = rbrace := by simpa using hxb
  exact List.mem_reverse.mp (hxeq ▸ hx)

theorem braceSpan_some_pair :
    ∀ (cs : List Char), (braceSpan cs).isSome = true →
      ∃ i j : Fin cs.length, i < j ∧ cs.get i = lbrace ∧ cs.get j = rbrace := by
  intro cs
  induction cs with
  | nil => intro h; simp [braceSpan] at h
  | cons a cs' ih =>
    intro h
    by_cases ha : a = lbrace
    · subst ha
      have hspan : braceSpan (lbrace :: cs') =
          if (upToLastRBrace cs').isEmpty then none else some (lbrace :: upToLastRBrace cs') := by
        simp [braceSpan, List.dropWhile_cons]
      rw [hspan] at h
      by_cases hemp : (upToLastRBrace cs').isEmpty = true
      · rw [if_pos hemp] at h
        simp at h
      · have hmem : rbrace ∈ cs' := mem_of_upToLastRBrace_ne_nil cs' hemp
        obtain ⟨k, hk⟩ := List.mem_iff_get.mp hmem
        refine ⟨⟨0, by simp⟩, ⟨k.val + 1, by simp [Nat.succ_lt_succ k.isLt]⟩, ?_, ?_, ?_⟩
        · exact Nat.succ_pos k.val
        · rfl
        · simpa [List.get_cons_succ] using hk
    · have hspan : braceSpan (a :: cs') = braceSpan cs' := by
        have : ((fun c => c != lbrace) a) = true := by simpa using ha
        simp [braceSpan, List.dropWhile_cons, this]
      rw [hspan] at h
      obtain ⟨i, j, hij, hi, hj⟩ := ih h
      refine ⟨⟨i.val + 1, Nat.succ_lt_succ i.isLt⟩, ⟨j.val + 1, Nat.succ_lt_succ j.isLt⟩,
        Nat.succ_lt_succ hij, ?_, ?_⟩
      · simpa [List.get_cons_succ] using hi
      · simpa [List.get_cons_succ] using hj

end BraceLemmas

/-- C6: for every model response text that contains no opening brace
followed later by a closing brace, the result parser raises no exception
and returns exactly the one-key map from `raw_response` to the original
text (with the no-JSON warning signalled). -/
theorem parse_no_brace_fallback (decode : String → Option (List (String × JValue)))
    (content : String)
    (h : ¬ ∃ i j : Fin content.data.length,
        i < j ∧ content.data.get i = lbrace ∧ content.data.get j = rbrace) :
    parse_extraction_result decode content =
      (some [("raw_response", JValue.jstr content)], [Signal.noJsonWarning]) := by
  have hspan : braceSpan content.data = none := by
    cases hb : braceSpan content.data with
    | none => rfl
    | some sp =>
      exact absurd (braceSpan_some_pair content.data (by rw [hb]; rfl)) h
  simp [parse_extraction_result, hspan]

/-- Witness for `parse_no_brace_fallback` at the concrete brace-free
response text `"no json here"`. -/
theorem parse_no_brace_fallback_witness :
    parse_extraction_result (fun _ => none) "no json here" =
      (some [("raw_response", JValue.jstr "no json here")], [Signal.noJsonWarning]) :=
  parse_no_brace_fallback (fun _ => none) "no json here" (by decide)

/-- C7: for every response text whose located first-brace-to-last-brace
span fails strict JSON decoding, the parser surfaces the parse-error signal
and terminates with no record (`none`) — never a partially built map. -/
theorem parse_decode_failure_none (decode : String → Option (List (String × JValue)))
    (content : String) (span : List Char)
    (h1 : braceSpan content.data = some span)
    (h2 : decode (String.mk span) = none) :
    parse_extraction_result decode content = (none, [Signal.jsonDecodeError]) := by
  simp [parse_extraction_result, h1, h2]

/-- Witness for `parse_decode_failure_none`: a decoder that always fails on
the concrete content whose brace span is the whole three-character text. -/
theorem parse_decode_failure_none_witness :
    parse_extraction_result (fun _ => none) (String.mk [lbrace, 'x', rbrace]) =
      (none, [Signal.jsonDecodeError]) :=
  parse_decode_failure_none (fun _ => none) (String.mk [lbrace, 'x', rbrace])
    [lbrace, 'x', rbrace] (by decide) rfl

/-- C8: for every decoded map on which the mapping stage of
`validate_invoice_data` raises, the exception is not propagated: the
function signals a non-fatal warning and returns the original decoded map
completely unmodified. -/
theorem validate_invoice_data_exception_fallback (data : List (String × JValue))
    (e : PyError) (h : viBody data = .error e) :
    validate_invoice_data data = (data, [Signal.validationWarning]) := by
  simp [validate_invoice_data, h]

/-- Witness for `validate_invoice_data_exception_fallback`: a decoded map
with a truthy string under `billing_to` makes the mapping stage raise
`AttributeError`, and the map comes back unmodified. -/
theorem validate_invoice_data_exception_fallback_witness :
    validate_invoice_data [("billing_to", JValue.jstr "Bob")] =
      ([("billing_to", JValue.jstr "Bob")], [Signal.validationWarning]) :=
  validate_invoice_data_exception_fallback [("billing_to", JValue.jstr "Bob")]
    PyError.attributeError rfl

/-- C1 (code bug): on the decoded map with invoice number `"INV-1"` and a
perfectly well-formed vendor sub-map, `validate_invoice_data` does NOT
return the cleaned generic-map projection with a vendor sub-object — the
mapping stage assigns a plain dict to `invoice.vendor`, so the final
`invoice.to_dict()` call raises `AttributeError` (a dict has no
`is_empty`), and the function falls into its exception handler, returning
the ORIGINAL map unmodified with only a warning.  The second conjunct shows
the internal `try` body indeed raises `AttributeError`. -/
theorem validate_invoice_data_vendor_bug :
    validate_invoice_data
        [("invoice_number", JValue.jstr "INV-1"), ("vendor", JValue.jobj [("name", JValue.jstr "Acme Corp")])] =
      ([("invoice_number", JValue.jstr "INV-1"), ("vendor", JValue.jobj [("name", JValue.jstr "Acme Corp")])],
        [Signal.validationWarning]) ∧
    viBody [("invoice_number", JValue.jstr "INV-1"), ("vendor", JValue.jobj [("name", JValue.jstr "Acme Corp")])] =
      .error PyError.attributeError :=
  ⟨rfl, rfl⟩

section ValidateLemmas

theorem isJStr_exists {v : JValue} (h : isJStr v = true) : ∃ s, v = .jstr s := by
  cases v <;> simp [isJStr] at h ⊢

theorem okBind {α β : Type} (a : α) (f : α → Except PyError β) :
    (Except.ok a >>= f) = f a := rfl

theorem isOk_exists {α : Type} {x : Except PyError α} (h : x.isOk = true) :
    ∃ a, x = .ok a := by
  cases x with
  | ok a => exact ⟨a, rfl⟩
  | error e => simp [Except.isOk, Except.toBool] at h

theorem itemErrorsFrom_isOk :
    ∀ (l : List LineItem) (i : Nat), l.all LineItem.strTyped = true →
      (itemErrorsFrom i l).isOk = true := by
  intro l
  induction l with
  | nil => intro i _; rfl
  | cons it rest ih =>
    intro i h
    rw [List.all_cons, Bool.and_eq_true] at h
    obtain ⟨s, hs⟩ := isJStr_exists (by
      have hst := h.1
      rw [LineItem.strTyped] at hst
      simp only [Bool.and_eq_true] at hst
      exact hst.1.2)
    obtain ⟨errs, herrs⟩ := isOk_exists (ih (i + 1) h.2)
    rw [itemErrorsFrom, hs]
    by_cases hp : pyTruthy (JValue.jstr s) = true <;>
      simp [hp, herrs, okBind, Except.isOk, Except.toBool, pure, Except.pure]

end ValidateLemmas

/-- C9: on every string-typed record (the data-model invariant: all scalar
and line-item fields are normalized strings), `validate` raises no
exception and returns a list of error strings; and on the concrete record
with empty invoice number and total amount `"abc"`, the returned list is
exactly the required-invoice-number error followed by the
not-a-valid-number error (`"abc"` stripped of non-digit, non-dot characters
is empty, which is not convertible to a decimal number). -/
theorem validate_total_and_scenario (r : InvoiceData) (h : r.strTyped = true) :
    (r.validate).isOk = true ∧
    InvoiceData.validate { invoice_number := .jstr "", total_amount := .jstr "abc" } =
      .ok ["Invoice number is required", "Total amount is not a valid number"] := by
  refine ⟨?_, rfl⟩
  rw [InvoiceData.strTyped] at h
  simp only [Bool.and_eq_true] at h
  obtain ⟨⟨⟨⟨⟨⟨⟨⟨_, hdate⟩, hdue⟩, _⟩, _⟩, _⟩, _⟩, htot⟩, hitems⟩ := h
  obtain ⟨sdate, hdate⟩ := isJStr_exists hdate
  obtain ⟨sdue, hdue⟩ := isJStr_exists hdue
  obtain ⟨stot, htot⟩ := isJStr_exists htot
  obtain ⟨ierrs, hierrs⟩ := isOk_exists (itemErrorsFrom_isOk r.line_items 0 hitems)
  rw [InvoiceData.validate, hdate, hdue, htot]
  by_cases h1 : pyTruthy (JValue.jstr sdate) = true <;>
    by_cases h2 : pyTruthy (JValue.jstr sdue) = true <;>
    by_cases h3 : pyTruthy (JValue.jstr stot) = true <;>
    by_cases hemp : r.line_items.isEmpty = true <;>
    simp [h1, h2, h3, hemp, hierrs, okBind, Except.isOk, Except.toBool, pure, Except.pure]

/-- Witness for `validate_total_and_scenario` at the concrete scenario
record itself (which is string-typed). -/
theorem validate_total_and_scenario_witness :
    (InvoiceData.validate { invoice_number := .jstr "", total_amount := .jstr "abc" }).isOk = true ∧
    InvoiceData.validate { invoice_number := .jstr "", total_amount := .jstr "abc" } =
      .ok ["Invoice number is required", "Total amount is not a valid number"] :=
  validate_total_and_scenario { invoice_number := .jstr "", total_amount := .jstr "abc" } rfl

section LookupLemmas

theorem dictGetD_append (l1 l2 : List (String × JValue)) (k : String) (d : JValue) :
    dictGetD (l1 ++ l2) k d = dictGetD l1 k (dictGetD l2 k d) := by
  induction l1 with
  | nil => rfl
  | cons p rest ih =>
    obtain ⟨k', v⟩ := p
    by_cases hk : k' = k
    · simp [dictGetD, hk]
    · simp [dictGetD, hk, ih]

theorem dictFind_append (l1 l2 : List (String × JValue)) (k : String) :
    dictFind (l1 ++ l2) k = (dictFind l1 k).or (dictFind l2 k) := by
  induction l1 with
  | nil => simp [dictFind]
  | cons p rest ih =>
    obtain ⟨k', v⟩ := p
    by_cases hk : k' = k
    · simp [dictFind, hk]
    · simp [dictFind, hk, ih]

theorem dictGetD_vendorPart (r : InvoiceData) (k : String) (d : JValue)
    (h : k ≠ "vendor") : dictGetD (vendorPart r) k d = d := by
  unfold vendorPart
  cases r.vendor with
  | none => rfl
  | some v =>
    dsimp only
    split
    · simp [dictGetD, Ne.symm h]
    · rfl

theorem dictGetD_billingPart (r : InvoiceData) (k : String) (d : JValue)
    (h : k ≠ "billing_to") : dictGetD (billingPart r) k d = d := by
  unfold billingPart
  cases r.billing_to with
  | none => rfl
  | some b =>
    dsimp only
    split
    · simp [dictGetD, Ne.symm h]
    · rfl

theorem dictGetD_itemsPart (r : InvoiceData) (k : String) (d : JValue)
    (h : k ≠ "line_items") : dictGetD (itemsPart r) k d = d := by
  unfold itemsPart
  split
  · rfl
  · simp [dictGetD, Ne.symm h]

theorem dictGetD_metaPart (r : InvoiceData) (k : String) (d : JValue)
    (h : k ≠ "_metadata") : dictGetD (metaPart r) k d = d := by
  unfold metaPart
  split
  · simp [dictGetD, Ne.symm h]
  · rfl

theorem dictGetD_to_dict_vendor (r : InvoiceData) :
    dictGetD r.to_dict "vendor" (.jobj []) =
      (match r.vendor with
        | some v => if !v.is_empty then v.to_dict else .jobj []
        | none => .jobj []) := by
  rw [InvoiceData.to_dict, dictGetD_append, dictGetD_append, dictGetD_append, dictGetD_append]
  rw [dictGetD_metaPart r _ _ (by decide), dictGetD_itemsPart r _ _ (by decide),
    dictGetD_billingPart r _ _ (by decide)]
  have hbase : ∀ d, dictGetD (baseFields r) "vendor" d = d := by
    intro d
    simp [baseFields, dictGetD]
  rw [hbase]
  unfold vendorPart
  cases r.vendor with
  | none => rfl
  | some v =>
    dsimp only
    split
    · simp [dictGetD]
    · rfl

theorem dictGetD_to_dict_items (r : InvoiceData) :
    dictGetD r.to_dict "line_items" (.jarr []) =
      .jarr ((r.line_items.filter (fun it => !it.is_empty)).map LineItem.to_dict) := by
  rw [InvoiceData.to_dict, dictGetD_append, dictGetD_append, dictGetD_append, dictGetD_append]
  rw [dictGetD_metaPart r _ _ (by decide)]
  have hbase : ∀ d, dictGetD (baseFields r) "line_items" d = d := by
    intro d
    simp [baseFields, dictGetD]
  rw [hbase, dictGetD_vendorPart r _ _ (by decide), dictGetD_billingPart r _ _ (by decide)]
  unfold itemsPart
  split
  · rename_i hemp
    rw [List.isEmpty_iff.mp hemp]
    rfl
  · simp [dictGetD]

theorem dictGetD_to_dict_billing (r : InvoiceData) :
    dictGetD r.to_dict "billing_to" (.jobj []) =
      (match r.billing_to with
        | some b => if !b.is_empty then b.to_dict else .jobj []
        | none => .jobj []) := by
  rw [InvoiceData.to_dict, dictGetD_append, dictGetD_append, dictGetD_append, dictGetD_append]
  rw [dictGetD_metaPart r _ _ (by decide), dictGetD_itemsPart r _ _ (by decide)]
  have hbase : ∀ d, dictGetD (baseFields r) "billing_to" d = d := by
    intro d
    simp [baseFields, dictGetD]
  rw [hbase, dictGetD_vendorPart r _ _ (by decide)]
  unfold billingPart
  cases r.billing_to with
  | none => rfl
  | some b =>
    dsimp only
    split
    · simp [dictGetD]
    · rfl

theorem dictGetD_to_dict_meta (r : InvoiceData) :
    dictGetD r.to_dict "_metadata" (.jobj []) =
      (if pyTruthy r.raw_response then
        JValue.jobj [("raw_response", r.raw_response),
          ("extraction_confidence", r.extraction_confidence),
          ("processing_time", r.processing_time)]
      else .jobj []) := by
  rw [InvoiceData.to_dict, dictGetD_append, dictGetD_append, dictGetD_append, dictGetD_append]
  have hbase : ∀ d, dictGetD (baseFields r) "_metadata" d = d := by
    intro d
    simp [baseFields, dictGetD]
  rw [hbase, dictGetD_vendorPart r _ _ (by decide), dictGetD_billingPart r _ _ (by decide),
    dictGetD_itemsPart r _ _ (by decide)]
  unfold metaPart
  split
  · simp [dictGetD]
  · rfl

end LookupLemmas

/-- C10: the serialized output of `to_dict` contains the key `line_items`
exactly when the internal list is non-empty (not exactly when some
non-empty item exists); in particular, when the list is non-empty but every
item is empty, the key is present and mapped to the empty list. -/
theorem to_dict_line_items_key (r : InvoiceData) :
    ((dictFind r.to_dict "line_items").isSome = true ↔ r.line_items ≠ []) ∧
    ((r.line_items ≠ [] ∧ ∀ it ∈ r.line_items, it.is_empty = true) →
      dictFind r.to_dict "line_items" = some (.jarr [])) := by
  have hmain : dictFind r.to_dict "line_items" =
      if r.line_items.isEmpty then none
      else some (.jarr ((r.line_items.filter (fun it => !it.is_empty)).map LineItem.to_dict)) := by
    rw [InvoiceData.to_dict, dictFind_append, dictFind_append, dictFind_append, dictFind_append]
    have h1 : dictFind (baseFields r) "line_items" = none := by
      simp [baseFields, dictFind]
    have h2 : dictFind (vendorPart r) "line_items" = none := by
      unfold vendorPart
      cases r.vendor with
      | none => rfl
      | some v =>
        dsimp only
        split
        · simp [dictFind]
        · rfl
    have h3 : dictFind (billingPart r) "line_items" = none := by
      unfold billingPart
      cases r.billing_to with
      | none => rfl
      | some b =>
        dsimp only
        split
        · simp [dictFind]
        · rfl
    have h4 : dictFind (metaPart r) "line_items" = none := by
      unfold metaPart
      split
      · simp [dictFind]
      · rfl
    rw [h1, h2, h3, h4]
    unfold itemsPart
    split
    · simp [dictFind]
    · simp [dictFind]
  constructor
  · rw [hmain]
    by_cases hemp : r.line_items.isEmpty = true
    · simp [hemp, List.isEmpty_iff.mp hemp]
    · have hne : r.line_items ≠ [] := fun hc => hemp (by rw [hc]; rfl)
      simp [hemp, hne]
  · rintro ⟨hne, hall⟩
    have hemp : ¬ r.line_items.isEmpty = true := fun hc => hne (List.isEmpty_iff.mp hc)
    rw [hmain, if_neg hemp]
    have hfil : r.line_items.filter (fun it => !it.is_empty) = [] := by
      rw [List.filter_eq_nil_iff]
      intro it hit
      simp [hall it hit]
    rw [hfil]
    rfl

/-- Witness for `to_dict_line_items_key`: a record holding exactly one
fully-empty line item serializes with `line_items` present and empty. -/
theorem to_dict_line_items_key_witness :
    dictFind (InvoiceData.to_dict { line_items := [{}] }) "line_items" = some (.jarr []) :=
  (to_dict_line_items_key { line_items := [{}] }).2
    ⟨by simp, by intro it hit; rw [List.mem_singleton] at hit; subst hit; rfl⟩

/-- C5 counterexample: `from_dict` DOES raise on a mistyped key — a truthy
non-map value under `vendor` (here the non-empty string `"Acme"`) reaches
`vendor_data.get(...)` and raises `AttributeError`, refuting the claim that
`from_dict` never raises for any input map. -/
theorem from_dict_truthy_nonmap_vendor_raises :
    InvoiceData.from_dict [("vendor", JValue.jstr "Acme")] = .error PyError.attributeError := rfl

/-- C5 (amended): `from_dict` raises no exception PROVIDED every truthy
value under `vendor`, `billing_to` and `_metadata` is a map and any truthy
`line_items` value is iterable (a list, string or map); under that shape
condition it returns a record, non-map entries inside `line_items` are
skipped, and on the empty map every field receives its default (empty
string, empty sub-objects, no items, zero metadata). -/
theorem from_dict_total_when_shaped (data : List (String × JValue))
    (h : fromDictShapeOk data = true) :
    (InvoiceData.from_dict data).isOk = true ∧ InvoiceData.from_dict [] = .ok {} := by
  refine ⟨?_, rfl⟩
  rw [fromDictShapeOk] at h
  simp only [Bool.and_eq_true] at h
  obtain ⟨⟨⟨hv, hb⟩, hm⟩, hi⟩ := h
  have hvok : (fdVendor data).isOk = true := by
    rw [fdVendor]
    cases hval : dictGetD data "vendor" (.jobj []) <;>
      rw [hval] at hv <;>
      simp_all [mapOrFalsy, pyTruthy, Except.isOk, Except.toBool, pure, Except.pure] <;>
      split_ifs <;> rfl
  have hbok : (fdBilling data).isOk = true := by
    rw [fdBilling]
    cases hval : dictGetD data "billing_to" (.jobj []) <;>
      rw [hval] at hb <;>
      simp_all [mapOrFalsy, pyTruthy, Except.isOk, Except.toBool, pure, Except.pure] <;>
      split_ifs <;> rfl
  have hmok : (fdMeta data).isOk = true := by
    rw [fdMeta]
    cases hval : dictGetD data "_metadata" (.jobj []) <;>
      rw [hval] at hm <;>
      simp_all [mapOrFalsy, pyTruthy, Except.isOk, Except.toBool, pure, Except.pure] <;>
      split_ifs <;> rfl
  have hiok : (fdItems data).isOk = true := by
    rw [fdItems]
    cases hval : dictGetD data "line_items" (.jarr []) <;>
      rw [hval] at hi <;>
      simp_all [iterOrFalsy, pyTruthy, Except.isOk, Except.toBool, pure, Except.pure] <;>
      split_ifs <;> rfl
  obtain ⟨a1, e1⟩ := isOk_exists hvok
  obtain ⟨a2, e2⟩ := isOk_exists hbok
  obtain ⟨a3, e3⟩ := isOk_exists hiok
  obtain ⟨a4, e4⟩ := isOk_exists hmok
  rw [InvoiceData.from_dict]
  simp only [e1, e2, e3, e4, okBind]
  rfl

/-- Witness for `from_dict_total_when_shaped`: a well-shaped map with a
vendor sub-map and a line-items list containing one skippable non-map entry
parses without raising. -/
theorem from_dict_total_when_shaped_witness :
    (InvoiceData.from_dict
      [("vendor", JValue.jobj [("name", JValue.jstr "A")]),
       ("line_items", JValue.jarr [JValue.jstr "x", JValue.jobj [("description", JValue.jstr "d")]]),
       ("_metadata", JValue.jobj [("raw_response", JValue.jstr "r")])]).isOk = true ∧
    InvoiceData.from_dict [] = .ok {} :=
  from_dict_total_when_shaped
    [("vendor", JValue.jobj [("name", JValue.jstr "A")]),
     ("line_items", JValue.jarr [JValue.jstr "x", JValue.jobj [("description", JValue.jstr "d")]]),
     ("_metadata", JValue.jobj [("raw_response", JValue.jstr "r")])] rfl

section RoundTripLemmas

theorem dictGetD_base_invoice_number (r : InvoiceData) (d : JValue) :
    dictGetD r.to_dict "invoice_number" d = r.invoice_number := by
  rw [InvoiceData.to_dict, dictGetD_append]
  simp [baseFields, dictGetD]

theorem dictGetD_base_invoice_date (r : InvoiceData) (d : JValue) :
    dictGetD r.to_dict "invoice_date" d = r.invoice_date := by
  rw [InvoiceData.to_dict, dictGetD_append]
  simp [baseFields, dictGetD]

theorem dictGetD_base_due_date (r : InvoiceData) (d : JValue) :
    dictGetD r.to_dict "due_date" d = r.due_date := by
  rw [InvoiceData.to_dict, dictGetD_append]
  simp [baseFields, dictGetD]

theorem dictGetD_base_currency (r : InvoiceData) (d : JValue) :
    dictGetD r.to_dict "currency" d = r.currency := by
  rw [InvoiceData.to_dict, dictGetD_append]
  simp [baseFields, dictGetD]

theorem dictGetD_base_subtotal (r : InvoiceData) (d : JValue) :
    dictGetD r.to_dict "subtotal" d = r.subtotal := by
  rw [InvoiceData.to_dict, dictGetD_append]
  simp [baseFields, dictGetD]

theorem dictGetD_base_tax_amount (r : InvoiceData) (d : JValue) :
    dictGetD r.to_dict "tax_amount" d = r.tax_amount := by
  rw [InvoiceData.to_dict, dictGetD_append]
  simp [baseFields, dictGetD]

theorem dictGetD_base_tax_rate (r : InvoiceData) (d : JValue) :
    dictGetD r.to_dict "tax_rate" d = r.tax_rate := by
  rw [InvoiceData.to_dict, dictGetD_append]
  simp [baseFields, dictGetD]

theorem dictGetD_base_total_amount (r : InvoiceData) (d : JValue) :
    dictGetD r.to_dict "total_amount" d = r.total_amount := by
  rw [InvoiceData.to_dict, dictGetD_append]
  simp [baseFields, dictGetD]

theorem vendorFromFieldsRound (v : VendorInfo) :
    VendorInfo.fromFields [("name", v.name), ("address", v.address), ("phone", v.phone), ("email", v.email)] = v := rfl

theorem billingFromFieldsRound (b : BillingInfo) :
    BillingInfo.fromFields [("name", b.name), ("address", b.address)] = b := rfl

theorem LineItem.ofJson_to_dict (it : LineItem) : LineItem.ofJson it.to_dict = some it := rfl

theorem filterMap_ofJson_map (l : List LineItem) :
    List.filterMap LineItem.ofJson (l.map LineItem.to_dict) = l := by
  induction l with
  | nil => rfl
  | cons it rest ih => simp [List.map_cons, List.filterMap_cons, LineItem.ofJson_to_dict, ih]

theorem fdVendor_to_dict (r : InvoiceData) :
    fdVendor r.to_dict = .ok (some (match r.vendor with
      | some v => if v.is_empty then {} else v
      | none => {})) := by
  rw [fdVendor, dictGetD_to_dict_vendor]
  cases r.vendor with
  | none => rfl
  | some v =>
    dsimp only
    by_cases he : v.is_empty = true
    · simp [he, pyTruthy, pure, Except.pure]
    · simp [he, pyTruthy, VendorInfo.to_dict, vendorFromFieldsRound, pure, Except.pure]

theorem fdBilling_to_dict (r : InvoiceData) :
    fdBilling r.to_dict = .ok (some (match r.billing_to with
      | some b => if b.is_empty then {} else b
      | none => {})) := by
  rw [fdBilling, dictGetD_to_dict_billing]
  cases r.billing_to with
  | none => rfl
  | some b =>
    dsimp only
    by_cases he : b.is_empty = true
    · simp [he, pyTruthy, pure, Except.pure]
    · simp [he, pyTruthy, BillingInfo.to_dict, billingFromFieldsRound, pure, Except.pure]

theorem fdItems_to_dict (r : InvoiceData) :
    fdItems r.to_dict = .ok (r.line_items.filter (fun it => !it.is_empty)) := by
  rw [fdItems, dictGetD_to_dict_items]
  cases hfl : r.line_items.filter (fun it => !it.is_empty) with
  | nil => simp [pyTruthy, pure, Except.pure]
  | cons it rest =>
    simp only [pyTruthy, List.map_cons, List.isEmpty_cons, Bool.not_false, if_pos]
    simp [pure, Except.pure]
    exact filterMap_ofJson_map (it :: rest)

theorem fdMeta_to_dict (r : InvoiceData) :
    fdMeta r.to_dict = .ok (if pyTruthy r.raw_response then
        (r.raw_response, r.extraction_confidence, r.processing_time)
      else (.jstr "", .jnum 0, .jnum 0)) := by
  rw [fdMeta, dictGetD_to_dict_meta]
  by_cases hr : pyTruthy r.raw_response = true
  · simp only [if_pos hr]
    simp [pyTruthy, dictGetD, pure, Except.pure]
  · simp only [if_neg hr]
    simp [pyTruthy, pure, Except.pure]

end RoundTripLemmas

/-- C2 (amended): serializing any record with `to_generic_map` and
re-parsing with `from_generic_map` succeeds and yields the record's round-
trip normal form: the eight scalar fields survive exactly, empty (or
absent) vendor/billing sub-objects are reset to fresh empty defaults,
empty line items are dropped, AND — the correction — when `raw_response` is
falsy the whole metadata block is reset to defaults, so a non-empty
`extraction_confidence` or `processing_time` is NOT preserved in that case
(see the counterexample `round_trip_confidence_cex`). -/
theorem from_dict_to_dict_round_trip (r : InvoiceData) :
    InvoiceData.from_dict r.to_dict = .ok (rtNormal r) := by
  rw [InvoiceData.from_dict]
  simp only [fdVendor_to_dict, fdBilling_to_dict, fdItems_to_dict, fdMeta_to_dict, okBind]
  rw [dictGetD_base_invoice_number, dictGetD_base_invoice_date, dictGetD_base_due_date,
    dictGetD_base_currency, dictGetD_base_subtotal, dictGetD_base_tax_amount,
    dictGetD_base_tax_rate, dictGetD_base_total_amount, rtNormal]
  by_cases hr : pyTruthy r.raw_response = true
  · simp [hr, pure, Except.pure]
  · simp [hr, pure, Except.pure]

/-- C2 counterexample: for the generic map carrying only a non-empty
extraction confidence inside `_metadata`, `from_generic_map` succeeds and
stores the (truthy, hence non-empty) confidence, but serializing and
re-parsing loses it: the re-parsed record holds the default confidence, so
re-parsing does NOT reproduce the same non-empty field values. -/
theorem round_trip_confidence_cex :
    ((InvoiceData.from_dict
        [("_metadata", JValue.jobj [("extraction_confidence", JValue.jstr "0.9")])]).toOption.map
      (fun r => r.extraction_confidence) = some (JValue.jstr "0.9")) ∧
    pyTruthy (JValue.jstr "0.9") = true ∧
    ((InvoiceData.from_dict
        [("_metadata", JValue.jobj [("extraction_confidence", JValue.jstr "0.9")])]).toOption.bind
      (fun r1 => (InvoiceData.from_dict r1.to_dict).toOption.map
        (fun r2 => r2.extraction_confidence)) = some (JValue.jnum 0)) ∧
    JValue.jstr "0.9" ≠ JValue.jnum 0 := by
  refine ⟨rfl, rfl, rfl, ?_⟩
  intro h
  exact JValue.noConfusion h

end InvoiceVision
